import Mathlib

/-!
Shallow embedding of the vote-index maintenance core of `src/posts.js`
(NodeBB posts module). The module keeps several ordered indices ("sorted
sets" in the backend) consistent with each post's vote counters, and
answers rank queries against them.

Modelling conventions:
* The backend sorted-set keys are strings built from fixed templates
  (`'uid:' + uid + ':posts:votes'`, `'topics:votes'`,
  `'cid:' + cid + ':tids:votes'`, `'tid:' + tid + ':posts:votes'`,
  `'tid:' + tid + ':posts'`, `'posts:votes'`). The templates have pairwise
  distinct literal prefixes, so the string keys are in bijection with the
  inductive type `SetName` below; we use it as the key type.
* Post / topic / user / category ids are modelled as `Nat`; the JavaScript
  falsy guard `!postData.pid` is `pid = 0` (0 covers both "missing" and
  "zero", the two falsy numeric cases the guard rejects).
* Vote scores are `Int` (a post's `votes = upvotes - downvotes` may be
  negative).
* The asynchronous `async.parallel` / `async.waterfall` fan-out in
  `updatePostVoteCount` writes pairwise disjoint keys, so its final state
  is modelled by sequential composition of the sub-updates.
* Fallible / absent values are `Option`.
-/

/-- The sorted-set key families used by `posts.js`, one constructor per
string template. -/
inductive SetName where
  /-- `'uid:' + uid + ':posts:votes'` : per-user post-vote index. -/
  | uidPostsVotes (uid : Nat)
  /-- `'topics:votes'` : global topic-vote index. -/
  | topicsVotes
  /-- `'cid:' + cid + ':tids:votes'` : per-category topic-vote index. -/
  | cidTidsVotes (cid : Nat)
  /-- `'tid:' + tid + ':posts:votes'` : per-topic post-vote index. -/
  | tidPostsVotes (tid : Nat)
  /-- `'tid:' + tid + ':posts'` : per-topic chronological post index. -/
  | tidPosts (tid : Nat)
  /-- `'posts:votes'` : global post-vote index. -/
  | postsVotes
deriving DecidableEq

/-- The argument record of `Posts.updatePostVoteCount`. -/
structure PostData where
  pid : Nat
  tid : Nat
  uid : Nat
  upvotes : Int
  downvotes : Int
  votes : Int
deriving DecidableEq

/-- The topic fields read and written by `updatePostVoteCount`
(`topics.getTopicFields(tid, ['mainPid', 'cid'])`,
`topics.setTopicFields`). -/
structure Topic where
  mainPid : Nat
  cid : Nat
  upvotes : Int
  downvotes : Int
deriving DecidableEq

/-- The post fields written by `Posts.setPostFields` in
`updatePostVoteCount`. -/
structure StoredPost where
  upvotes : Int
  downvotes : Int
deriving DecidableEq

/-- The backend state: sorted-set membership scores, topic records, stored
post records, plus the read-only oracles the rank/range queries consult
(`sortedSetRank` answers, `getSortedSet(Rev)Range` answers, and the
per-user `topicPostSort` setting from `user.getSettings`). -/
structure Db where
  /-- `sets s m` is the score of member `m` in sorted set `s`, or `none`
  when `m` is not a member. -/
  sets : SetName → Nat → Option Int
  topics : Nat → Topic
  storedPosts : Nat → StoredPost
  /-- `ranks s m` is the backend `sortedSetRank` answer: the 0-based rank
  of `m` in `s`, `none` when `m` is not a member (the backend returns
  `null` there, which fails the `utils.isNumber` check). -/
  ranks : SetName → Nat → Option Nat
  /-- `range set start stop rev` is the backend
  `getSortedSetRange` / `getSortedSetRevRange` answer. -/
  range : String → Int → Int → Bool → List Nat
  /-- `topicPostSortOf uid` is `settings.topicPostSort` for viewer `uid`. -/
  topicPostSortOf : Nat → String

/-- `db.sortedSetAdd(set, score, member)`: add-or-update a member's
score. -/
def sortedSetAdd (s : SetName) (score : Int) (m : Nat) (db : Db) : Db :=
  { db with sets := fun s2 m2 => if s2 = s ∧ m2 = m then some score else db.sets s2 m2 }

/-- `db.sortedSetRemove(set, member)`: remove a member. -/
def sortedSetRemove (s : SetName) (m : Nat) (db : Db) : Db :=
  { db with sets := fun s2 m2 => if s2 = s ∧ m2 = m then none else db.sets s2 m2 }

/-- `topics.setTopicFields(tid, { upvotes, downvotes })`. -/
def setTopicVoteFields (tid : Nat) (up down : Int) (db : Db) : Db :=
  { db with topics := fun t =>
      if t = tid then { db.topics t with upvotes := up, downvotes := down }
      else db.topics t }

/-- `Posts.setPostFields(pid, { upvotes, downvotes })`. -/
def setPostVoteFields (pid : Nat) (up down : Int) (db : Db) : Db :=
  { db with storedPosts := fun p =>
      if p = pid then { upvotes := up, downvotes := down }
      else db.storedPosts p }

/-- `Posts.updatePostVoteCount(postData, callback)` (posts.js lines
151-209). Guard: falsy `postData`, `postData.pid` or `postData.tid` is a
silent no-op. Otherwise four parallel sub-updates run: (1) per-user index
add/remove depending on `votes > 0`, (2) the topic-scoped update (main
post: topic fields + global/category topic-vote index; other post:
per-topic post-vote index), (3) global post-vote index, (4) persisting the
post's own vote fields. The sub-updates write disjoint keys, so the final
state is their sequential composition. -/
def updatePostVoteCount (postData : Option PostData) (db : Db) : Db :=
  match postData with
  | none => db
  | some p =>
    if p.pid = 0 ∨ p.tid = 0 then db
    else
      let db1 :=
        if p.uid ≠ 0 then
          if p.votes > 0 then
            sortedSetAdd (SetName.uidPostsVotes p.uid) p.votes p.pid db
          else
            sortedSetRemove (SetName.uidPostsVotes p.uid) p.pid db
        else db
      let topicData := db.topics p.tid
      let db2 :=
        if topicData.mainPid = p.pid then
          sortedSetAdd (SetName.cidTidsVotes topicData.cid) p.votes p.tid
            (sortedSetAdd SetName.topicsVotes p.votes p.tid
              (setTopicVoteFields p.tid p.upvotes p.downvotes db1))
        else
          sortedSetAdd (SetName.tidPostsVotes p.tid) p.votes p.pid db1
      let db3 := sortedSetAdd SetName.postsVotes p.votes p.pid db2
      setPostVoteFields p.pid p.upvotes p.downvotes db3

/-- A concrete backend state used to instantiate theorems: every topic has
`mainPid = 5`, `cid = 7`, all indices empty. -/
def dbEx : Db where
  sets := fun _ _ => none
  topics := fun _ => { mainPid := 5, cid := 7, upvotes := 0, downvotes := 0 }
  storedPosts := fun _ => { upvotes := 0, downvotes := 0 }
  ranks := fun _ _ => none
  range := fun _ _ _ _ => []
  topicPostSortOf := fun _ => "most_votes"

/-- Main post of topic 1 in `dbEx` (pid 5 = mainPid), votes 3. -/
def pEx1 : PostData where
  pid := 5
  tid := 1
  uid := 9
  upvotes := 4
  downvotes := 1
  votes := 3

/-- Non-main post of topic 1 in `dbEx` (pid 2 ≠ mainPid 5), votes 5. -/
def pEx2 : PostData where
  pid := 2
  tid := 1
  uid := 9
  upvotes := 5
  downvotes := 0
  votes := 5

/-- A partially-formed post record: `pid` is falsy (missing/zero). -/
def pEx0 : PostData where
  pid := 0
  tid := 1
  uid := 9
  upvotes := 1
  downvotes := 0
  votes := 1

/-- `Posts.getPidIndex(pid, tid, topicPostSort)` (posts.js lines 99-112):
pick the per-topic vote index when the sort is `'most_votes'`, else the
per-topic chronological index; `sortedSetRank`; a non-number answer
(`utils.isNumber` fails, e.g. `null` for a non-member) yields `0`, a rank
yields `rank + 1`. -/
def getPidIndex (pid tid : Nat) (topicPostSort : String) (db : Db) : Nat :=
  let set := if topicPostSort = "most_votes" then SetName.tidPostsVotes tid
             else SetName.tidPosts tid
  match db.ranks set pid with
  | none => 0
  | some r => r + 1

/-- The per-element mapping of `Posts.getPostIndices`'s last stage:
`utils.isNumber(indices[i]) ? parseInt(indices[i], 10) + 1 : 0`. -/
def rankToIndex (r : Option Nat) : Nat :=
  match r with
  | some n => n + 1
  | none => 0

/-- A post as seen by `Posts.getPostIndices`: only `pid` and `tid` are
read. -/
structure PostRef where
  pid : Nat
  tid : Nat
deriving DecidableEq

/-- The batched rank query `getPostIndices` issues: none at all (empty
input), one `sortedSetRanks` call (a single set, many members), or one
`sortedSetsRanks` call (one set per member). -/
inductive RankQuery where
  | noCall
  | singleSet (s : SetName) (pids : List Nat)
  | multiSet (sets : List SetName) (pids : List Nat)
deriving DecidableEq

/-- Helper for `uniqFirst`: keep each element not already seen. -/
def uniqFirstAux (seen : List SetName) : List SetName → List SetName
  | [] => []
  | a :: as =>
    if a ∈ seen then uniqFirstAux seen as
    else a :: uniqFirstAux (a :: seen) as

/-- lodash `_.uniq`: deduplicate keeping the first occurrence of each
element, preserving order. -/
def uniqFirst (l : List SetName) : List SetName :=
  uniqFirstAux [] l

/-- The set/member selection of `Posts.getPostIndices` (posts.js lines
120-141): build one set name per post from the viewer's sort preference,
`_.uniq` them, and use the single-set batched method (`sortedSetRanks`)
when exactly one distinct set remains, else the multi-set method
(`sortedSetsRanks`). -/
def getPostIndicesQuery (posts : List PostRef) (topicPostSort : String) : RankQuery :=
  let sets := posts.map fun post =>
    if topicPostSort = "most_votes" then SetName.tidPostsVotes post.tid
    else SetName.tidPosts post.tid
  let pids := posts.map fun post => post.pid
  match uniqFirst sets with
  | [s] => RankQuery.singleSet s pids
  | _ => RankQuery.multiSet sets pids

/-- The backend's answer to a batched rank query: `sortedSetRanks` ranks
every pid in the one set, `sortedSetsRanks` pairs each pid with its own
set. -/
def runRankQuery (db : Db) : RankQuery → List (Option Nat)
  | RankQuery.noCall => []
  | RankQuery.singleSet s pids => pids.map fun pid => db.ranks s pid
  | RankQuery.multiSet sets pids => (sets.zip pids).map fun sp => db.ranks sp.1 sp.2

/-- The query `Posts.getPostIndices(posts, uid)` issues: empty input
returns early with no backend call; otherwise the viewer's
`topicPostSort` setting is fetched and the sets are selected. -/
def getPostIndicesCall (posts : List PostRef) (uid : Nat) (db : Db) : RankQuery :=
  if posts.isEmpty then RankQuery.noCall
  else getPostIndicesQuery posts (db.topicPostSortOf uid)

/-- `Posts.getPostIndices(posts, uid)` (posts.js lines 114-150): issue the
batched rank query and map every raw rank through
`utils.isNumber ? rank + 1 : 0`. -/
def getPostIndices (posts : List PostRef) (uid : Nat) (db : Db) : List Nat :=
  (runRankQuery db (getPostIndicesCall posts uid db)).map rankToIndex

/-- The numeric coercion of a JavaScript argument: either a (non-NaN)
number, or a value whose coercion is `NaN` (such as the string
`"abc"`, `undefined`, `NaN` itself) — exactly what `isNaN(x)` tests. -/
inductive JsNum where
  | int (i : Int)
  | nan
deriving DecidableEq

/-- JavaScript `isNaN`. -/
def jsIsNaN : JsNum → Bool
  | JsNum.int _ => false
  | JsNum.nan => true

/-- Numeric value of a non-NaN argument (unused on the NaN branch). -/
def jsNumVal : JsNum → Int
  | JsNum.int i => i
  | JsNum.nan => 0

/-- The backend range query `getPidsFromSet` issues, or no call at all. -/
inductive RangeQuery where
  | noCall
  | call (set : String) (start stop : Int) (rev : Bool)
deriving DecidableEq

/-- The guard and dispatch of `Posts.getPidsFromSet` (posts.js lines
36-41): `isNaN(start) || isNaN(stop)` returns `[]` with no backend call,
else one `getSortedSetRevRange`/`getSortedSetRange` call depending on
`reverse`. -/
def getPidsFromSetQuery (set : String) (start stop : JsNum) (reverse : Bool) : RangeQuery :=
  if jsIsNaN start || jsIsNaN stop then RangeQuery.noCall
  else RangeQuery.call set (jsNumVal start) (jsNumVal stop) reverse

/-- `Posts.getPidsFromSet(set, start, stop, reverse)`. -/
def getPidsFromSet (set : String) (start stop : JsNum) (reverse : Bool) (db : Db) : List Nat :=
  match getPidsFromSetQuery set start stop reverse with
  | RangeQuery.noCall => []
  | RangeQuery.call s a b r => db.range s a b r

/-- A raw stored field value as `parseInt(x, 10)` sees it: an integral
value `i`, or a missing/non-numeric value that parses to `NaN`. -/
inductive StoredVal where
  | int (i : Int)
  | invalid
deriving DecidableEq

/-- `parseInt(x, 10) || 0`: a `NaN` parse (and a parse of `0`) yields `0`,
any other parsed integer — including a negative one — is kept. -/
def parseIntOr0 : StoredVal → Int
  | StoredVal.int i => i
  | StoredVal.invalid => 0

/-- The vote fields computed by the decoration stage of
`Posts.getPostsByPids`. -/
structure DecoratedVotes where
  upvotes : Int
  downvotes : Int
  votes : Int
deriving DecidableEq

/-- The vote-coercion step of `Posts.getPostsByPids` (posts.js lines
60-62): `post.upvotes = parseInt(post.upvotes, 10) || 0`, likewise for
`downvotes`, then `post.votes = post.upvotes - post.downvotes`. -/
def decorateVoteFields (rawUp rawDown : StoredVal) : DecoratedVotes :=
  let u := parseIntOr0 rawUp
  let d := parseIntOr0 rawDown
  { upvotes := u, downvotes := d, votes := u - d }

/-- The author sub-object of a decorated post; `modifyPostByPrivilege`
touches only `signature`, the other field witnesses the frame. -/
structure PostUser where
  signature : String
  username : String
deriving DecidableEq

/-- A decorated post as `Posts.modifyPostByPrivilege` sees it. -/
structure Post where
  pid : Nat
  content : String
  deleted : Bool
  selfPost : Bool
  user : Option PostUser
deriving DecidableEq

/-- The privilege flags read by `modifyPostByPrivilege`
(`privileges['posts:view_deleted']`). -/
structure PostPrivileges where
  posts_view_deleted : Bool
deriving DecidableEq

/-- `Posts.modifyPostByPrivilege(post, privileges)` (posts.js lines
211-218): when the post is deleted and the viewer is neither the author
(`selfPost`) nor holds `posts:view_deleted`, replace the content with the
placeholder and blank the author signature when a user object is present.
The source mutates in place; the embedding returns the updated record. -/
def modifyPostByPrivilege (post : Post) (priv : PostPrivileges) : Post :=
  if post.deleted && !(post.selfPost || priv.posts_view_deleted) then
    { post with
      content := "[[topic:post_is_deleted]]",
      user := post.user.map fun u => { u with signature := "" } }
  else post

/-- The plugin hook payload of `filter:post.getPosts`: `posts` is `none`
when the field is missing or not an array. -/
structure HookData where
  posts : Option (List (Option Post))
deriving DecidableEq

/-- The final stage of `Posts.getPostsByPids` (posts.js lines 73-78): a
falsy hook result or a non-array `posts` field yields `[]`; otherwise
`data.posts.filter(Boolean)` drops absent entries. -/
def finalizeHookResult (data : Option HookData) : List (Option Post) :=
  match data with
  | none => []
  | some d =>
    match d.posts with
    | none => []
    | some ps => ps.filter fun p => p.isSome

/-- A present decorated post used to instantiate the hook-payload
theorem. -/
def postEx : Post where
  pid := 1
  content := "hello"
  deleted := false
  selfPost := false
  user := none

/-- A deleted post by another author, with a user object present. -/
def postDel : Post where
  pid := 3
  content := "secret"
  deleted := true
  selfPost := false
  user := some { signature := "sig", username := "alice" }

/-- A privilege set without `posts:view_deleted`. -/
def privNone : PostPrivileges where
  posts_view_deleted := false

@[simp] theorem sortedSetAdd_sets (s : SetName) (v : Int) (m : Nat) (db : Db)
    (s2 : SetName) (m2 : Nat) :
    (sortedSetAdd s v m db).sets s2 m2
      = if s2 = s ∧ m2 = m then some v else db.sets s2 m2 := rfl

@[simp] theorem sortedSetAdd_topics (s : SetName) (v : Int) (m : Nat) (db : Db) :
    (sortedSetAdd s v m db).topics = db.topics := rfl

@[simp] theorem sortedSetAdd_storedPosts (s : SetName) (v : Int) (m : Nat) (db : Db) :
    (sortedSetAdd s v m db).storedPosts = db.storedPosts := rfl

@[simp] theorem sortedSetRemove_sets (s : SetName) (m : Nat) (db : Db)
    (s2 : SetName) (m2 : Nat) :
    (sortedSetRemove s m db).sets s2 m2
      = if s2 = s ∧ m2 = m then none else db.sets s2 m2 := rfl

@[simp] theorem sortedSetRemove_topics (s : SetName) (m : Nat) (db : Db) :
    (sortedSetRemove s m db).topics = db.topics := rfl

@[simp] theorem sortedSetRemove_storedPosts (s : SetName) (m : Nat) (db : Db) :
    (sortedSetRemove s m db).storedPosts = db.storedPosts := rfl

@[simp] theorem setTopicVoteFields_sets (tid : Nat) (u d : Int) (db : Db) :
    (setTopicVoteFields tid u d db).sets = db.sets := rfl

@[simp] theorem setTopicVoteFields_topics (tid : Nat) (u d : Int) (db : Db) (t : Nat) :
    (setTopicVoteFields tid u d db).topics t
      = if t = tid then { db.topics t with upvotes := u, downvotes := d }
        else db.topics t := rfl

@[simp] theorem setPostVoteFields_sets (pid : Nat) (u d : Int) (db : Db) :
    (setPostVoteFields pid u d db).sets = db.sets := rfl

@[simp] theorem setPostVoteFields_topics (pid : Nat) (u d : Int) (db : Db) :
    (setPostVoteFields pid u d db).topics = db.topics := rfl

/-- C6: for an absent input record, or one whose `pid` or `tid` is missing
or zero, `updatePostVoteCount` is a silent no-op: it completes without
error and leaves the whole backend state — every index, every topic field,
every post field — unchanged. -/
theorem updatePostVoteCount_noop_on_invalid (p : PostData) (db : Db)
    (h : p.pid = 0 ∨ p.tid = 0) :
    updatePostVoteCount (some p) db = db ∧ updatePostVoteCount none db = db := by
  refine ⟨?_, rfl⟩
  simp only [updatePostVoteCount, if_pos h]

/-- Witness for C6 at a concrete record with `pid = 0`. -/
theorem updatePostVoteCount_noop_on_invalid_witness :
    (pEx0.pid = 0 ∨ pEx0.tid = 0)
    ∧ (updatePostVoteCount (some pEx0) dbEx = dbEx
       ∧ updatePostVoteCount none dbEx = dbEx) :=
  ⟨Or.inl rfl, updatePostVoteCount_noop_on_invalid pEx0 dbEx (Or.inl rfl)⟩

/-- C3: after `updatePostVoteCount` on a (well-formed) post with a
non-zero `uid`, the post's entry in the author's per-user post-vote index
(`uid:<uid>:posts:votes`) carries score `votes` when `votes > 0` and is
absent when `votes ≤ 0` — whatever score (including a previously positive
one) was stored before. -/
theorem updatePostVoteCount_per_user_index (p : PostData) (db : Db)
    (h1 : p.pid ≠ 0) (h2 : p.tid ≠ 0) (h3 : p.uid ≠ 0) :
    (updatePostVoteCount (some p) db).sets (SetName.uidPostsVotes p.uid) p.pid
      = if p.votes > 0 then some p.votes else none := by
  have hguard : ¬(p.pid = 0 ∨ p.tid = 0) := not_or.mpr ⟨h1, h2⟩
  simp only [updatePostVoteCount, if_neg hguard]
  by_cases hm : (db.topics p.tid).mainPid = p.pid <;>
    by_cases hv : p.votes > 0 <;>
      simp [hm, hv, h3]

/-- Witness for C3: `pEx2` has `uid = 9 ≠ 0` and `votes = 5 > 0`. -/
theorem updatePostVoteCount_per_user_index_witness :
    pEx2.pid ≠ 0 ∧ pEx2.tid ≠ 0 ∧ pEx2.uid ≠ 0
    ∧ (updatePostVoteCount (some pEx2) dbEx).sets
        (SetName.uidPostsVotes pEx2.uid) pEx2.pid
      = if pEx2.votes > 0 then some pEx2.votes else none :=
  ⟨by decide, by decide, by decide,
    updatePostVoteCount_per_user_index pEx2 dbEx (by decide) (by decide) (by decide)⟩

/-- C1: when the post is its topic's main post (`pid = mainPid`),
`updatePostVoteCount` copies the post's `upvotes`/`downvotes` onto the
topic record, writes `votes` as the topic's score in the global topic-vote
index (`topics:votes`) and in the owning category's topic-vote index
(`cid:<cid>:tids:votes`), writes `votes` as the post's score in the global
post-vote index (`posts:votes`), and does not touch the post's entry in
the topic's per-topic post-vote index (`tid:<tid>:posts:votes`). -/
theorem updatePostVoteCount_main_post (p : PostData) (db : Db)
    (h1 : p.pid ≠ 0) (h2 : p.tid ≠ 0)
    (hm : (db.topics p.tid).mainPid = p.pid) :
    ((updatePostVoteCount (some p) db).topics p.tid).upvotes = p.upvotes
    ∧ ((updatePostVoteCount (some p) db).topics p.tid).downvotes = p.downvotes
    ∧ (updatePostVoteCount (some p) db).sets SetName.topicsVotes p.tid = some p.votes
    ∧ (updatePostVoteCount (some p) db).sets
        (SetName.cidTidsVotes (db.topics p.tid).cid) p.tid = some p.votes
    ∧ (updatePostVoteCount (some p) db).sets SetName.postsVotes p.pid = some p.votes
    ∧ (updatePostVoteCount (some p) db).sets (SetName.tidPostsVotes p.tid) p.pid
      = db.sets (SetName.tidPostsVotes p.tid) p.pid := by
  have hguard : ¬(p.pid = 0 ∨ p.tid = 0) := not_or.mpr ⟨h1, h2⟩
  simp only [updatePostVoteCount, if_neg hguard]
  by_cases hu : p.uid ≠ 0 <;>
    by_cases hv : p.votes > 0 <;>
      simp [hm, hu, hv]

/-- Witness for C1: `pEx1.pid = 5` is `dbEx`'s `mainPid`. -/
theorem updatePostVoteCount_main_post_witness :
    pEx1.pid ≠ 0 ∧ pEx1.tid ≠ 0 ∧ (dbEx.topics pEx1.tid).mainPid = pEx1.pid
    ∧ (((updatePostVoteCount (some pEx1) dbEx).topics pEx1.tid).upvotes = pEx1.upvotes
       ∧ ((updatePostVoteCount (some pEx1) dbEx).topics pEx1.tid).downvotes = pEx1.downvotes
       ∧ (updatePostVoteCount (some pEx1) dbEx).sets SetName.topicsVotes pEx1.tid
         = some pEx1.votes
       ∧ (updatePostVoteCount (some pEx1) dbEx).sets
           (SetName.cidTidsVotes (dbEx.topics pEx1.tid).cid) pEx1.tid = some pEx1.votes
       ∧ (updatePostVoteCount (some pEx1) dbEx).sets SetName.postsVotes pEx1.pid
         = some pEx1.votes
       ∧ (updatePostVoteCount (some pEx1) dbEx).sets (SetName.tidPostsVotes pEx1.tid) pEx1.pid
         = dbEx.sets (SetName.tidPostsVotes pEx1.tid) pEx1.pid) :=
  ⟨by decide, by decide, by decide,
    updatePostVoteCount_main_post pEx1 dbEx (by decide) (by decide) (by decide)⟩

/-- C2: when the post is not its topic's main post, `updatePostVoteCount`
writes `votes` as the post's score in the topic's per-topic post-vote
index and in the global post-vote index, and leaves the global topic-vote
index, every per-category topic-vote index, and every topic record
(including the topic's stored `upvotes`/`downvotes`) unchanged. -/
theorem updatePostVoteCount_non_main_post (p : PostData) (db : Db) (c m : Nat)
    (h1 : p.pid ≠ 0) (h2 : p.tid ≠ 0)
    (hm : (db.topics p.tid).mainPid ≠ p.pid) :
    (updatePostVoteCount (some p) db).sets (SetName.tidPostsVotes p.tid) p.pid
      = some p.votes
    ∧ (updatePostVoteCount (some p) db).sets SetName.postsVotes p.pid = some p.votes
    ∧ (updatePostVoteCount (some p) db).sets SetName.topicsVotes m
      = db.sets SetName.topicsVotes m
    ∧ (updatePostVoteCount (some p) db).sets (SetName.cidTidsVotes c) m
      = db.sets (SetName.cidTidsVotes c) m
    ∧ (updatePostVoteCount (some p) db).topics = db.topics := by
  have hguard : ¬(p.pid = 0 ∨ p.tid = 0) := not_or.mpr ⟨h1, h2⟩
  simp only [updatePostVoteCount, if_neg hguard]
  by_cases hu : p.uid ≠ 0 <;>
    by_cases hv : p.votes > 0 <;>
      simp [hm, hu, hv]

/-- Witness for C2: `pEx2.pid = 2` differs from `dbEx`'s `mainPid = 5`;
probe member `1` of the untouched indices and category `7`. -/
theorem updatePostVoteCount_non_main_post_witness :
    pEx2.pid ≠ 0 ∧ pEx2.tid ≠ 0 ∧ (dbEx.topics pEx2.tid).mainPid ≠ pEx2.pid
    ∧ ((updatePostVoteCount (some pEx2) dbEx).sets (SetName.tidPostsVotes pEx2.tid) pEx2.pid
         = some pEx2.votes
       ∧ (updatePostVoteCount (some pEx2) dbEx).sets SetName.postsVotes pEx2.pid
         = some pEx2.votes
       ∧ (updatePostVoteCount (some pEx2) dbEx).sets SetName.topicsVotes 1
         = dbEx.sets SetName.topicsVotes 1
       ∧ (updatePostVoteCount (some pEx2) dbEx).sets (SetName.cidTidsVotes 7) 1
         = dbEx.sets (SetName.cidTidsVotes 7) 1
       ∧ (updatePostVoteCount (some pEx2) dbEx).topics = dbEx.topics) :=
  ⟨by decide, by decide, by decide,
    updatePostVoteCount_non_main_post pEx2 dbEx 7 1 (by decide) (by decide) (by decide)⟩

/-- C4: `getPidIndex` consults the per-topic vote index for sort mode
`"most_votes"` and the per-topic chronological index otherwise, returns
the 0-based rank plus 1 when the backend yields a valid rank and `0`
otherwise (the result is a `Nat`, so never negative and never null), and
the result is ≥ 1 exactly when the post is a member of the chosen
ordering. -/
theorem getPidIndex_spec (pid tid : Nat) (topicPostSort : String) (db : Db) :
    getPidIndex pid tid topicPostSort db
      = rankToIndex (db.ranks (if topicPostSort = "most_votes" then SetName.tidPostsVotes tid
                               else SetName.tidPosts tid) pid)
    ∧ (1 ≤ getPidIndex pid tid topicPostSort db
        ↔ (db.ranks (if topicPostSort = "most_votes" then SetName.tidPostsVotes tid
                     else SetName.tidPosts tid) pid).isSome = true)
    ∧ (getPidIndex pid tid topicPostSort db = 0
        ↔ db.ranks (if topicPostSort = "most_votes" then SetName.tidPostsVotes tid
                    else SetName.tidPosts tid) pid = none) := by
  by_cases hs : topicPostSort = "most_votes" <;>
    [cases h : db.ranks (SetName.tidPostsVotes tid) pid;
     cases h : db.ranks (SetName.tidPosts tid) pid] <;>
    simp [getPidIndex, rankToIndex, hs, h]

theorem uniqFirstAux_all_eq (c : SetName) (l : List SetName) :
    ∀ seen : List SetName, (∀ x ∈ l, x = c) → c ∈ seen →
      uniqFirstAux seen l = [] := by
  induction l with
  | nil => intro seen _ _; rfl
  | cons a as ih =>
    intro seen hall hseen
    have ha : a = c := hall a (List.mem_cons_self a as)
    have : a ∈ seen := ha ▸ hseen
    simp only [uniqFirstAux, if_pos this]
    exact ih seen (fun x hx => hall x (List.mem_cons_of_mem a hx)) hseen

theorem uniqFirst_all_eq (c : SetName) (l : List SetName)
    (hne : l ≠ []) (hall : ∀ x ∈ l, x = c) : uniqFirst l = [c] := by
  cases l with
  | nil => exact absurd rfl hne
  | cons a as =>
    have ha : a = c := hall a (List.mem_cons_self a as)
    subst ha
    simp only [uniqFirst, uniqFirstAux, List.not_mem_nil, if_false]
    rw [uniqFirstAux_all_eq a as [a]
      (fun x hx => hall x (List.mem_cons_of_mem a hx)) (List.mem_cons_self a [])]

theorem getPostIndicesQuery_most_votes (posts : List PostRef) (t : Nat)
    (hne : posts ≠ []) (hmem : ∀ p ∈ posts, p.tid = t) :
    getPostIndicesQuery posts "most_votes"
      = RankQuery.singleSet (SetName.tidPostsVotes t) (posts.map fun p => p.pid) := by
  have huniq : uniqFirst (posts.map fun post => SetName.tidPostsVotes post.tid)
      = [SetName.tidPostsVotes t] := by
    refine uniqFirst_all_eq _ _ (by simpa using hne) ?_
    intro x hx
    obtain ⟨p, hp, rfl⟩ := List.mem_map.mp hx
    rw [hmem p hp]
  simp only [getPostIndicesQuery, if_true, huniq]

/-- C5: for a non-empty post list all in one topic, a viewer whose
`topicPostSort` preference is `"most_votes"` makes `getPostIndices` issue
one single-set batched rank query (`sortedSetRanks`) against that topic's
per-topic vote index — not one query per post — and the result maps each
raw rank to `rank + 1` (valid) or `0`, in the input's order and length;
an empty input yields `[]` with no backend call at all. -/
theorem getPostIndices_single_topic (posts : List PostRef) (t uid : Nat) (db : Db)
    (hne : posts ≠ [])
    (hall : posts.all (fun p => decide (p.tid = t)) = true)
    (hsort : db.topicPostSortOf uid = "most_votes") :
    getPostIndicesCall posts uid db
      = RankQuery.singleSet (SetName.tidPostsVotes t) (posts.map fun p => p.pid)
    ∧ getPostIndices posts uid db
      = posts.map (fun p => rankToIndex (db.ranks (SetName.tidPostsVotes t) p.pid))
    ∧ (getPostIndices posts uid db).length = posts.length
    ∧ getPostIndicesCall [] uid db = RankQuery.noCall
    ∧ getPostIndices [] uid db = [] := by
  have hmem : ∀ p ∈ posts, p.tid = t := by
    intro p hp
    exact of_decide_eq_true (List.all_eq_true.mp hall p hp)
  have hcall : getPostIndicesCall posts uid db
      = RankQuery.singleSet (SetName.tidPostsVotes t) (posts.map fun p => p.pid) := by
    obtain ⟨a, as, rfl⟩ : ∃ a as, posts = a :: as := by
      cases posts with
      | nil => exact absurd rfl hne
      | cons a as => exact ⟨a, as, rfl⟩
    simp only [getPostIndicesCall, List.isEmpty_cons, Bool.false_eq_true, if_false, hsort]
    exact getPostIndicesQuery_most_votes (a :: as) t (by simp) hmem
  have h2 : getPostIndices posts uid db
      = posts.map (fun p => rankToIndex (db.ranks (SetName.tidPostsVotes t) p.pid)) := by
    simp only [getPostIndices, hcall, runRankQuery, List.map_map]
    rfl
  exact ⟨hcall, h2, by rw [h2, List.length_map], rfl, rfl⟩

/-- Witness for C5: two posts of topic 1 under `dbEx`, whose viewer
preference is `"most_votes"` and whose rank oracle is empty. -/
theorem getPostIndices_single_topic_witness :
    ([⟨5, 1⟩, ⟨2, 1⟩] : List PostRef) ≠ []
    ∧ ([⟨5, 1⟩, ⟨2, 1⟩] : List PostRef).all (fun p => decide (p.tid = 1)) = true
    ∧ dbEx.topicPostSortOf 9 = "most_votes"
    ∧ (getPostIndicesCall [⟨5, 1⟩, ⟨2, 1⟩] 9 dbEx
         = RankQuery.singleSet (SetName.tidPostsVotes 1)
             (([⟨5, 1⟩, ⟨2, 1⟩] : List PostRef).map fun p => p.pid)
       ∧ getPostIndices [⟨5, 1⟩, ⟨2, 1⟩] 9 dbEx
         = ([⟨5, 1⟩, ⟨2, 1⟩] : List PostRef).map
             (fun p => rankToIndex (dbEx.ranks (SetName.tidPostsVotes 1) p.pid))
       ∧ (getPostIndices [⟨5, 1⟩, ⟨2, 1⟩] 9 dbEx).length
         = ([⟨5, 1⟩, ⟨2, 1⟩] : List PostRef).length
       ∧ getPostIndicesCall [] 9 dbEx = RankQuery.noCall
       ∧ getPostIndices [] 9 dbEx = []) :=
  ⟨by decide, by decide, rfl,
    getPostIndices_single_topic [⟨5, 1⟩, ⟨2, 1⟩] 1 9 dbEx (by decide) (by decide) rfl⟩

/-- C8: whenever `start` or `stop` fails JavaScript's `isNaN` test (a NaN
value, such as the numeric coercion of the string `"abc"`),
`getPidsFromSet` returns the empty list and issues no backend range call,
for every set name and `reverse` flag; no error is raised. -/
theorem getPidsFromSet_nan_guard (set : String) (start stop : JsNum)
    (reverse : Bool) (db : Db)
    (h : (jsIsNaN start || jsIsNaN stop) = true) :
    getPidsFromSetQuery set start stop reverse = RangeQuery.noCall
    ∧ getPidsFromSet set start stop reverse db = [] := by
  constructor
  · simp only [getPidsFromSetQuery, h, if_true]
  · simp only [getPidsFromSet, getPidsFromSetQuery, h, if_true]

/-- Witness for C8 at `start = NaN`, `stop = 5`. -/
theorem getPidsFromSet_nan_guard_witness :
    (jsIsNaN JsNum.nan || jsIsNaN (JsNum.int 5)) = true
    ∧ (getPidsFromSetQuery "posts:pid" JsNum.nan (JsNum.int 5) false = RangeQuery.noCall
       ∧ getPidsFromSet "posts:pid" JsNum.nan (JsNum.int 5) false dbEx = []) :=
  ⟨rfl, getPidsFromSet_nan_guard "posts:pid" JsNum.nan (JsNum.int 5) false dbEx rfl⟩

/-- C7 counterexample: the coercion `parseInt(x, 10) || 0` does not
produce a non-negative counter — a stored upvote value that parses to
`-5` is kept as `-5`, contradicting the claim that the decoration
pipeline's coerced `upvotes` is never negative. -/
theorem decorateVoteFields_negative_passthrough :
    (decorateVoteFields (StoredVal.int (-5)) (StoredVal.int 0)).upvotes < 0 := by
  decide

/-- C7 (amended): the decoration stage coerces `upvotes`/`downvotes` with
`parseInt(x, 10) || 0`, which defaults missing/invalid (NaN-parsing)
values to 0 but passes any parsed integer — including a negative one —
through unchanged; `votes` equals the coerced `upvotes` minus the coerced
`downvotes`, and the coercion is total (never throws). -/
theorem decorateVoteFields_spec (u d : StoredVal) :
    (decorateVoteFields u d).votes
      = (decorateVoteFields u d).upvotes - (decorateVoteFields u d).downvotes
    ∧ (decorateVoteFields u d).upvotes = parseIntOr0 u
    ∧ (decorateVoteFields u d).downvotes = parseIntOr0 d
    ∧ parseIntOr0 StoredVal.invalid = 0 := by
  simp [decorateVoteFields, parseIntOr0]

/-- C9: a malformed plugin-hook payload (falsy, or a `posts` field that is
not an array) makes `getPostsByPids` return the empty list rather than
fail, and the returned list never contains absent entries: every surviving
element passes the `filter(Boolean)` presence test. -/
theorem finalizeHookResult_spec (bad good : Option HookData)
    (h : bad = none ∨ ∃ d, bad = some d ∧ d.posts = none) :
    finalizeHookResult bad = []
    ∧ (finalizeHookResult good).all Option.isSome = true := by
  constructor
  · rcases h with rfl | ⟨d, rfl, hp⟩
    · rfl
    · simp [finalizeHookResult, hp]
  · match good with
    | none => rfl
    | some d =>
      match hd : d.posts with
      | none => simp [finalizeHookResult, hd]
      | some ps =>
        simp only [finalizeHookResult, hd, List.all_eq_true]
        intro x hx
        exact (List.mem_filter.mp hx).2

/-- Witness for C9: the malformed payload has a non-array `posts` field;
the well-formed one carries a present post and an absent marker. -/
theorem finalizeHookResult_spec_witness :
    ((some (HookData.mk none) : Option HookData) = none
      ∨ ∃ d, (some (HookData.mk none) : Option HookData) = some d ∧ d.posts = none)
    ∧ (finalizeHookResult (some (HookData.mk none)) = []
       ∧ (finalizeHookResult (some (HookData.mk (some [some postEx, none])))).all
           Option.isSome = true) :=
  ⟨Or.inr ⟨HookData.mk none, rfl, rfl⟩,
    finalizeHookResult_spec (some (HookData.mk none))
      (some (HookData.mk (some [some postEx, none])))
      (Or.inr ⟨HookData.mk none, rfl, rfl⟩)⟩

/-- C10: `modifyPostByPrivilege` replaces `content` with the fixed
placeholder and blanks the author signature (when a user object is
present) exactly when the post is deleted and the viewer is neither the
author (`selfPost`) nor holds `posts:view_deleted`; it never changes any
field other than `content` and `user.signature` (pid, deleted, selfPost,
the author's other fields and the presence of the user object are
preserved), and when the condition fails the post is returned entirely
unchanged. -/
theorem modifyPostByPrivilege_spec (post : Post) (priv : PostPrivileges) :
    ((post.deleted && !(post.selfPost || priv.posts_view_deleted)) = true →
       (modifyPostByPrivilege post priv).content = "[[topic:post_is_deleted]]"
       ∧ (modifyPostByPrivilege post priv).user
         = post.user.map fun u => { u with signature := "" })
    ∧ ((post.deleted && !(post.selfPost || priv.posts_view_deleted)) = false →
       modifyPostByPrivilege post priv = post)
    ∧ (modifyPostByPrivilege post priv).pid = post.pid
    ∧ (modifyPostByPrivilege post priv).deleted = post.deleted
    ∧ (modifyPostByPrivilege post priv).selfPost = post.selfPost
    ∧ (modifyPostByPrivilege post priv).user.map PostUser.username
      = post.user.map PostUser.username
    ∧ (modifyPostByPrivilege post priv).user.isSome = post.user.isSome := by
  unfold modifyPostByPrivilege
  by_cases hc : (post.deleted && !(post.selfPost || priv.posts_view_deleted)) = true
  · rw [if_pos hc]
    refine ⟨fun _ => ⟨rfl, rfl⟩, ?_, rfl, rfl, rfl, ?_, ?_⟩
    · intro hfalse
      exact absurd (hc.symm.trans hfalse) (by decide)
    · cases hu : post.user <;> simp [hu]
    · cases hu : post.user <;> simp [hu]
  · rw [if_neg hc]
    exact ⟨fun h => absurd h hc, fun _ => rfl, rfl, rfl, rfl, rfl, rfl⟩

/-- Witness for C10: the redaction branch fires on `postDel` under
`privNone`. -/
theorem modifyPostByPrivilege_spec_witness :
    (postDel.deleted && !(postDel.selfPost || privNone.posts_view_deleted)) = true
    ∧ ((modifyPostByPrivilege postDel privNone).content = "[[topic:post_is_deleted]]"
       ∧ (modifyPostByPrivilege postDel privNone).user
         = postDel.user.map fun u => { u with signature := "" }) :=
  ⟨rfl, (modifyPostByPrivilege_spec postDel privNone).1 rfl⟩
